import Mathlib

/-!
Shallow embedding of the two core subsystems of the toutago repository:
the dependency-injection container (package `di`, source file with
`container.MakeWith`, `container.build`, `container.AutoWire`,
`container.Tagged`, ...) and the in-process message bus (package
`message`, source file with `bus.Publish`, `bus.PublishSync`,
`bus.Subscribe`, `bus.Start`, `bus.Stop`, `bus.process`,
`bus.getHandlers`).

Modelling conventions, stated once:

* Go `interface{}` values are modelled by the inductive `GoVal`; Go
  `reflect.Type` data that the code inspects (kind, `String()`, `Elem()`)
  is modelled by `GoTy`.
* The calls are modelled sequentially (one goroutine).  Under sequential
  execution the binding registry cannot change during a single
  resolution, so the resolution functions take the bindings as a fixed
  parameter and thread only the singleton cache; the registration
  operations work on the full container state `CState`.
* Go map iteration order is unspecified; maps are determinised as
  association lists in insertion order with in-place overwrite
  (`insertA`).  None of the verified claims depends on cross-key order.
* User-supplied factory closures are arbitrary user code, not code of
  this repository; they are modelled by an oracle `fenv : Nat →
  Outcome GoVal` indexed by a factory id stored in the binding.
  Likewise `impls ty n` is the oracle for Go's
  `Type.AssignableTo` check when the target is the interface named `n`.
* Constructor functions registered as `concrete` are modelled by
  `GoVal.ctorFn`: a declared parameter-type list, a declared number of
  return values, an id, and the error value the call would return; the
  value a successful call returns is the opaque symbolic application
  `GoVal.made id args` (a non-pointer value, so the post-construction
  auto-wiring branch of `build` is skipped, exactly as for any
  non-pointer return value in the source).
* A Go runtime panic (send on a closed channel, close of a closed
  channel, method call on a nil `reflect.Type`) is the `Outcome.panic`
  constructor: it is not an error return.
* General recursion through `Make → build → AutoWire → Make` is made
  structural with a fuel parameter that every call decrements;
  exhausting the fuel yields the distinguished `Outcome.fuelOut`, which
  no theorem equates with any source behaviour.
-/

/-- Result of a modelled Go call: normal return value, returned `error`,
runtime panic, or fuel exhaustion of the model. -/
inductive Outcome (α : Type) where
  | ok (a : α)
  | err (e : String)
  | panic (msg : String)
  | fuelOut
  deriving DecidableEq, Repr

/-- The fragment of Go's type structure that the container inspects
reflectively: interface types, pointer-to-struct types, and everything
else, each carrying the `reflect.Type.String()` rendering. -/
inductive GoTy where
  | iface (name : String)
  | ptrTo (structName : String)
  | other (name : String)
  deriving DecidableEq, Repr

/-- Go `reflect.Type.String()`. A pointer type renders with a leading
star. -/
def GoTy.str : GoTy → String
  | .iface n => n
  | .ptrTo n => "*" ++ n
  | .other n => n

/-- One struct field as seen by `AutoWire`: name, value of the `inject`
struct tag (`""` when the tag is absent), the `Anonymous` flag, the
`CanSet` flag, the declared type and the current value. -/
structure GoFieldP (v : Type) where
  fname : String
  tag : String
  anonymous : Bool
  canSet : Bool
  fty : GoTy
  fval : v

/-- Modelled Go `interface{}` values. -/
inductive GoVal where
  /-- An opaque non-pointer, non-function instance of the named type. -/
  | prim (ty : String) (id : Nat)
  /-- A pointer to a struct of the named type, with its fields. -/
  | ptrStruct (sname : String) (fields : List (GoFieldP GoVal))
  /-- The opaque value returned by a successful call of constructor
  `cid` on the given arguments. -/
  | made (cid : Nat) (args : List GoVal)
  /-- A constructor function: declared parameter types, declared number
  of results, id, and the error result a call would produce. -/
  | ctorFn (ptys : List GoTy) (nout : Nat) (cid : Nat) (errOut : Option String)
  /-- The nil interface. -/
  | nilV

abbrev GoField := GoFieldP GoVal

/-- Go `reflect.TypeOf` on a modelled value (total here; the `nilV` case
is never reached by the verified claims). -/
def goTypeOf : GoVal → GoTy
  | .prim ty _ => .other ty
  | .ptrStruct n _ => .ptrTo n
  | .made cid _ => .other ("ctor#" ++ toString cid)
  | .ctorFn _ _ _ _ => .other ("func")
  | .nilV => .other ("nil")

/-- Go `v == zero value` as used by `reflect.Value.IsZero` on the
injectable field kinds (interface and pointer fields are zero exactly
when nil). -/
def isZero : GoVal → Bool
  | .nilV => true
  | _ => false

/-- The `abstract interface{}` argument of the container's exported
operations: either a `reflect.Type`, or an ordinary value whose dynamic
type keys the lookup, or the nil interface. -/
inductive GoKey where
  | ofType (t : GoTy)
  | ofVal (v : GoVal)
  | nilKey

/-- `container.getKey`: a `reflect.Type` argument renders itself;
any other value renders its dynamic type.  A nil argument makes
`reflect.TypeOf` return nil and the `String()` call on the nil
interface is a runtime panic. -/
def getKey : GoKey → Outcome String
  | .ofType t => .ok t.str
  | .ofVal .nilV => .panic ("runtime error: invalid memory address or nil pointer dereference")
  | .ofVal v => .ok (goTypeOf v).str
  | .nilKey => .panic ("runtime error: invalid memory address or nil pointer dereference")

/-- One registry entry (`di.binding`): concrete value, optional factory
(by oracle id), shared flag, tags. -/
structure Binding where
  concrete : GoVal
  factory : Option Nat
  shared : Bool
  tags : List String

abbrev Bindings := List (String × Binding)
abbrev Params := List (String × GoVal)
abbrev Sing := List (String × GoVal)
abbrev FEnv := Nat → Outcome GoVal
abbrev Impls := GoTy → String → Bool

/-- First-match lookup in an association list (Go map read). -/
def lookupA {α : Type} : List (String × α) → String → Option α
  | [], _ => none
  | (k', v) :: rest, k => if k' = k then some v else lookupA rest k

/-- Overwriting insert (Go map write): replaces the existing entry in
place, else appends. -/
def insertA {α : Type} : List (String × α) → String → α → List (String × α)
  | [], k, v => [(k, v)]
  | (k', v') :: rest, k, v =>
      if k' = k then (k, v) :: rest else (k', v') :: insertA rest k v

/-- Go `AssignableTo`: exact type equality, or implementation of a
target interface (by oracle). -/
def assignableTo (impls : Impls) (src tgt : GoTy) : Bool :=
  src = tgt ||
    (match tgt with
     | .iface n => impls src n
     | _ => false)

/-- The capability key `AutoWire` derives for a field, by field kind.
For an interface field the source computes
`reflect.New(field.Type()).Elem().Interface()`, which is the nil
interface, so the key argument handed to `Make` is
`reflect.TypeOf(nil) = nil`.  For a pointer field it computes
`reflect.New(field.Type().Elem()).Interface()`, a non-nil `*T`, whose
type is the field type itself.  Other kinds are not injectable. -/
def fieldKey : GoTy → Option GoKey
  | .iface _ => some GoKey.nilKey
  | .ptrTo n => some (GoKey.ofType (.ptrTo n))
  | .other _ => none

mutual

/-- `container.MakeWith` (and `Make`, which is `MakeWith` with nil
params): key derivation, binding lookup, singleton-cache check, factory
or `build`, singleton store on success of a shared binding. -/
def makeWith (fenv : FEnv) (impls : Impls) (bs : Bindings) :
    Nat → GoKey → Params → Sing → Outcome GoVal × Sing
  | 0, _, _, sg => (.fuelOut, sg)
  | fuel+1, abstract, params, sg =>
      match getKey abstract with
      | .ok key =>
          (match lookupA bs key with
           | none => (.err ("no binding found for " ++ key), sg)
           | some b =>
               match (if b.shared then lookupA sg key else none) with
               | some inst => (.ok inst, sg)
               | none =>
                   match (match b.factory with
                          | some fid => (fenv fid, sg)
                          | none => build fenv impls bs fuel b.concrete params sg) with
                   | (.ok inst, sg') =>
                       (.ok inst, if b.shared then insertA sg' key inst else sg')
                   | (.err e, sg') => (.err e, sg')
                   | (.panic m, sg') => (.panic m, sg')
                   | (.fuelOut, sg') => (.fuelOut, sg'))
      | .err e => (.err e, sg)
      | .panic m => (.panic m, sg)
      | .fuelOut => (.fuelOut, sg)
termination_by structural fuel _ _ _ => fuel

/-- `container.build`.  A non-function concrete is returned as-is,
after in-place auto-wiring when it is a pointer to a struct.  A
constructor function must declare one or two results; its arguments are
built positionally; with two declared results a non-nil second result
propagates as the error; a pointer result is auto-wired (the symbolic
`made` results are non-pointer values, so that branch is the identity
for them, exactly as for any non-pointer return value in the source). -/
def build (fenv : FEnv) (impls : Impls) (bs : Bindings) :
    Nat → GoVal → Params → Sing → Outcome GoVal × Sing
  | 0, _, _, sg => (.fuelOut, sg)
  | fuel+1, concrete, params, sg =>
      match concrete with
      | .ctorFn ptys nout cid errOut =>
          if nout ≠ 1 ∧ nout ≠ 2 then
            (.err ("constructor must return 1 or 2 values"), sg)
          else
            (match buildArgs fenv impls bs fuel ptys 0 params sg with
             | (.ok args, sg') =>
                 (match (if nout = 2 then errOut else none) with
                  | some e => (.err e, sg')
                  | none =>
                      match goTypeOf (.made cid args) with
                      | .ptrTo _ =>
                          (match autoWire fenv impls bs fuel (.made cid args) sg' with
                           | (.ok _, v', sg'') => (.ok v', sg'')
                           | (.err e, _, sg'') => (.err e, sg'')
                           | (.panic m, _, sg'') => (.panic m, sg'')
                           | (.fuelOut, _, sg'') => (.fuelOut, sg''))
                      | _ => (.ok (.made cid args), sg'))
             | (.err e, sg') => (.err e, sg')
             | (.panic m, sg') => (.panic m, sg')
             | (.fuelOut, sg') => (.fuelOut, sg'))
      | .ptrStruct sname fields =>
          (match autoWire fenv impls bs fuel (.ptrStruct sname fields) sg with
           | (.ok _, v', sg') => (.ok v', sg')
           | (.err e, _, sg') => (.err e, sg')
           | (.panic m, _, sg') => (.panic m, sg')
           | (.fuelOut, _, sg') => (.fuelOut, sg'))
      | .nilV =>
          -- reflect.TypeOf(nil).Kind() dereferences a nil Type
          (.panic ("runtime error: invalid memory address or nil pointer dereference"), sg)
      | v => (.ok v, sg)
termination_by structural fuel _ _ _ => fuel

/-- The constructor-argument loop of `container.build`.  The source
looks an override up in `params`, but the `continue` that follows the
override assignment advances only the inner loop over `params`; control
then falls through to the container resolution, which either fails the
whole build or overwrites `args[i]`.  The override is therefore dead,
which the unused binder below makes explicit. -/
def buildArgs (fenv : FEnv) (impls : Impls) (bs : Bindings) :
    Nat → List GoTy → Nat → Params → Sing → Outcome (List GoVal) × Sing
  | 0, _, _, _, sg => (.fuelOut, sg)
  | _+1, [], _, _, sg => (.ok [], sg)
  | fuel+1, t :: ts, i, params, sg =>
      let _override := lookupA params t.str
      match makeWith fenv impls bs fuel (.ofType t) [] sg with
      | (.ok inst, sg') =>
          (match buildArgs fenv impls bs fuel ts (i+1) params sg' with
           | (.ok rest, sg'') => (.ok (inst :: rest), sg'')
           | (.err e, sg'') => (.err e, sg'')
           | (.panic m, sg'') => (.panic m, sg'')
           | (.fuelOut, sg'') => (.fuelOut, sg''))
      | (.err e, sg') =>
          (.err ("failed to resolve constructor arg " ++ toString i ++ ": " ++ e), sg')
      | (.panic m, sg') => (.panic m, sg')
      | (.fuelOut, sg') => (.fuelOut, sg')
termination_by structural fuel _ _ _ _ => fuel

/-- `container.AutoWire`: the target must be a pointer to a struct;
its fields are then processed in order, in place (the returned value is
the mutated target). -/
def autoWire (fenv : FEnv) (impls : Impls) (bs : Bindings) :
    Nat → GoVal → Sing → Outcome Unit × GoVal × Sing
  | 0, target, sg => (.fuelOut, target, sg)
  | fuel+1, target, sg =>
      match target with
      | .ptrStruct sname fields =>
          (match autoWireFields fenv impls bs fuel fields sg with
           | (out, fields', sg') => (out, .ptrStruct sname fields', sg'))
      | _ => (.err ("target must be a pointer"), target, sg)
termination_by structural fuel _ _ => fuel

/-- The field loop of `container.AutoWire`: skip fields without an
`inject` tag that are not anonymous; skip non-zero fields; derive the
key by field kind (other kinds are skipped); resolve via `Make`; on
error skip `optional` fields and propagate otherwise; on success assign
when the field is settable and the instance is assignable to the field
type. -/
def autoWireFields (fenv : FEnv) (impls : Impls) (bs : Bindings) :
    Nat → List GoField → Sing → Outcome Unit × List GoField × Sing
  | 0, fs, sg => (.fuelOut, fs, sg)
  | _+1, [], sg => (.ok (), [], sg)
  | fuel+1, f :: fs, sg =>
      if f.tag = "" ∧ ¬f.anonymous then
        match autoWireFields fenv impls bs fuel fs sg with
        | (out, fs', sg') => (out, f :: fs', sg')
      else if ¬(isZero f.fval) then
        match autoWireFields fenv impls bs fuel fs sg with
        | (out, fs', sg') => (out, f :: fs', sg')
      else
        match fieldKey f.fty with
        | none =>
            (match autoWireFields fenv impls bs fuel fs sg with
             | (out, fs', sg') => (out, f :: fs', sg'))
        | some k =>
            match makeWith fenv impls bs fuel k [] sg with
            | (.err e, sg') =>
                if f.tag = "optional" then
                  match autoWireFields fenv impls bs fuel fs sg' with
                  | (out, fs', sg'') => (out, f :: fs', sg'')
                else
                  (.err ("failed to resolve " ++ f.fname ++ ": " ++ e), f :: fs, sg')
            | (.panic m, sg') => (.panic m, f :: fs, sg')
            | (.fuelOut, sg') => (.fuelOut, f :: fs, sg')
            | (.ok inst, sg') =>
                let f' :=
                  if f.canSet ∧ assignableTo impls (goTypeOf inst) f.fty then
                    { f with fval := inst }
                  else f
                match autoWireFields fenv impls bs fuel fs sg' with
                | (out, fs', sg'') => (out, f' :: fs', sg'')
termination_by structural fuel _ _ => fuel

end

/-- Full container state (`di.container`): binding registry and
singleton cache.  The `sync.RWMutex` is not modelled (sequential
semantics). -/
structure CState where
  bindings : Bindings
  singletons : Sing

/-- `di.NewContainer`. -/
def newContainer : CState := ⟨[], []⟩

/-- `container.Bind`: registers a non-shared binding, overwriting any
existing binding for the key. -/
def bindOp (s : CState) (abstract : GoKey) (concrete : GoVal) : Outcome Unit × CState :=
  match getKey abstract with
  | .ok key => (.ok (), { s with bindings := insertA s.bindings key ⟨concrete, none, false, []⟩ })
  | .err e => (.err e, s)
  | .panic m => (.panic m, s)
  | .fuelOut => (.fuelOut, s)

/-- `container.Singleton`: as `Bind` with `shared = true`. -/
def singletonOp (s : CState) (abstract : GoKey) (concrete : GoVal) : Outcome Unit × CState :=
  match getKey abstract with
  | .ok key => (.ok (), { s with bindings := insertA s.bindings key ⟨concrete, none, true, []⟩ })
  | .err e => (.err e, s)
  | .panic m => (.panic m, s)
  | .fuelOut => (.fuelOut, s)

/-- `container.Factory`: registers a factory (by oracle id), non-shared,
with the zero-valued `concrete` (nil interface). -/
def factoryOp (s : CState) (abstract : GoKey) (fid : Nat) : Outcome Unit × CState :=
  match getKey abstract with
  | .ok key => (.ok (), { s with bindings := insertA s.bindings key ⟨.nilV, some fid, false, []⟩ })
  | .err e => (.err e, s)
  | .panic m => (.panic m, s)
  | .fuelOut => (.fuelOut, s)

/-- `container.BindTagged`: as `Bind` plus the tag list, stored as
given. -/
def bindTaggedOp (s : CState) (abstract : GoKey) (concrete : GoVal) (tags : List String) :
    Outcome Unit × CState :=
  match getKey abstract with
  | .ok key => (.ok (), { s with bindings := insertA s.bindings key ⟨concrete, none, false, tags⟩ })
  | .err e => (.err e, s)
  | .panic m => (.panic m, s)
  | .fuelOut => (.fuelOut, s)

/-- `container.Has`. -/
def hasOp (s : CState) (abstract : GoKey) : Outcome Bool :=
  match getKey abstract with
  | .ok key => .ok (lookupA s.bindings key).isSome
  | .err e => .err e
  | .panic m => .panic m
  | .fuelOut => .fuelOut

/-- `container.MakeWith` at the level of the full container state. -/
def makeWithS (fenv : FEnv) (impls : Impls) (s : CState) (fuel : Nat)
    (abstract : GoKey) (params : Params) : Outcome GoVal × CState :=
  match makeWith fenv impls s.bindings fuel abstract params s.singletons with
  | (r, sg) => (r, { s with singletons := sg })

/-- `container.Make` = `MakeWith` with nil params. -/
def makeS (fenv : FEnv) (impls : Impls) (s : CState) (fuel : Nat)
    (abstract : GoKey) : Outcome GoVal × CState :=
  makeWithS fenv impls s fuel abstract []

/-- The inner tag loop of `container.Tagged` for one binding: one
iteration per occurrence of the requested tag in the binding's tag
list; a cached shared instance is appended as-is, otherwise the
instance is built (and, as in the source, never stored). -/
def taggedTags (fenv : FEnv) (impls : Impls) (bs : Bindings) (fuel : Nat)
    (key : String) (b : Binding) (tag : String) :
    List String → Sing → Outcome (List GoVal) × Sing
  | [], sg => (.ok [], sg)
  | t :: ts, sg =>
      if t = tag then
        match (if b.shared then lookupA sg key else none) with
        | some inst =>
            (match taggedTags fenv impls bs fuel key b tag ts sg with
             | (.ok more, sg') => (.ok (inst :: more), sg')
             | other => other)
        | none =>
            match (match b.factory with
                   | some fid => (fenv fid, sg)
                   | none => build fenv impls bs fuel b.concrete [] sg) with
            | (.ok inst, sg') =>
                (match taggedTags fenv impls bs fuel key b tag ts sg' with
                 | (.ok more, sg'') => (.ok (inst :: more), sg'')
                 | other => other)
            | (.err e, sg') => (.err e, sg')
            | (.panic m, sg') => (.panic m, sg')
            | (.fuelOut, sg') => (.fuelOut, sg')
      else taggedTags fenv impls bs fuel key b tag ts sg

/-- The outer binding loop of `container.Tagged` (map iteration
determinised to registry order); the first build failure aborts the
whole call. -/
def taggedLoop (fenv : FEnv) (impls : Impls) (bs : Bindings) (fuel : Nat) (tag : String) :
    List (String × Binding) → Sing → Outcome (List GoVal) × Sing
  | [], sg => (.ok [], sg)
  | (key, b) :: rest, sg =>
      match taggedTags fenv impls bs fuel key b tag b.tags sg with
      | (.ok insts, sg') =>
          (match taggedLoop fenv impls bs fuel tag rest sg' with
           | (.ok more, sg'') => (.ok (insts ++ more), sg'')
           | other => other)
      | (.err e, sg') => (.err e, sg')
      | (.panic m, sg') => (.panic m, sg')
      | (.fuelOut, sg') => (.fuelOut, sg')

/-- `container.Tagged`. -/
def tagged (fenv : FEnv) (impls : Impls) (s : CState) (fuel : Nat) (tag : String) :
    Outcome (List GoVal) × CState :=
  match taggedLoop fenv impls s.bindings fuel tag s.bindings s.singletons with
  | (r, sg) => (r, { s with singletons := sg })

/-! ## Message bus (package `message`) -/

/-- A message as the bus matches it: slug and category/type
(`BaseMessage.Slug`, `BaseMessage.Type`). -/
structure Msg where
  slug : String
  ty : String

/-- One queued envelope (`messageEnvelope`): the message and the
delivery-mode flag.  The per-envelope context and completion channel
are part of the dispatch model below. -/
structure Envelope where
  msg : Msg
  isSync : Bool

/-- Bus state (`message.bus`): the subscriber registry as a total map
from pattern to handler-id list (a missing Go map key reads as the
empty list), the lifecycle flags, and the queued envelopes.  Handlers
are identified by `Nat`; a handler's behaviour is given by the oracle
`hret` below, its returned response message being unused by the bus.
The cancellation contexts are modelled as never fired and the bounded
queue (capacity 100) as never full; no verified claim involves
cancellation or backpressure. -/
structure BusState where
  subs : String → List Nat
  started : Bool
  closed : Bool
  cancelled : Bool
  queue : List Envelope

/-- `message.NewBus`. -/
def newBus : BusState :=
  { subs := fun _ => [], started := false, closed := false, cancelled := false, queue := [] }

/-- `bus.Subscribe`: always succeeds, appending to the pattern's
handler list. -/
def subscribe (p : String) (h : Nat) (b : BusState) : BusState :=
  { b with subs := fun q => if q = p then b.subs q ++ [h] else b.subs q }

/-- `bus.Unsubscribe`: removes the first handler with matching identity
under the pattern; no-op if absent. -/
def unsubscribe (p : String) (h : Nat) (b : BusState) : BusState :=
  { b with subs := fun q =>
      if q = p then
        match (b.subs q).indexOf? h with
        | some i => (b.subs q).eraseIdx i
        | none => b.subs q
      else b.subs q }

/-- `bus.getHandlers`: concatenation, in this order, of the handlers
under the exact slug, the exact type and the wildcard pattern. -/
def getHandlers (b : BusState) (m : Msg) : List Nat :=
  b.subs m.slug ++ b.subs m.ty ++ b.subs ("*")

/-- `bus.Start`: fails when already started, else sets the flag and
launches the dispatch loop. -/
def start (b : BusState) : Outcome Unit × BusState :=
  if b.started then (.err ("message bus already started"), b)
  else (.ok (), { b with started := true })

/-- `bus.Stop`: returns nil at once when never started; otherwise
cancels the context and closes the envelope channel — closing an
already-closed channel is a runtime panic.  The wait on the dispatch
loop and spawned handlers completes in the sequential model (the
deadline branch is not taken).  Note the source never clears
`started`. -/
def stop (b : BusState) : Outcome Unit × BusState :=
  if ¬b.started then (.ok (), b)
  else if b.closed then (.panic ("close of closed channel"), b)
  else (.ok (), { b with cancelled := true, closed := true })

/-- `bus.Publish`: rejected with an error while `started` is unset;
otherwise the envelope is sent on the `messages` channel, which is a
runtime panic once the channel has been closed by `Stop`. -/
def publish (b : BusState) (m : Msg) : Outcome Unit × BusState :=
  if ¬b.started then (.err ("message bus not started"), b)
  else if b.closed then (.panic ("send on closed channel"), b)
  else (.ok (), { b with queue := b.queue ++ [⟨m, false⟩] })

/-- The Sync branch of `bus.process` for one envelope: invoke every
matched handler in order, collecting the returned errors; the result is
the invocation trace paired with the collected error list.  `hret h`
is handler `h`'s returned error (`none` for a nil error). -/
def processSyncLoop (hret : Nat → Option String) : List Nat → List Nat × List String
  | [] => ([], [])
  | h :: hs =>
      match hret h, processSyncLoop hret hs with
      | some e, (tr, errs) => (h :: tr, e :: errs)
      | none, (tr, errs) => (h :: tr, errs)

/-- `bus.PublishSync` composed with the dispatch of its envelope by
`bus.process`: the not-started check, then the Sync dispatch whose
completion signal carries the first collected error (or nil).  The
result also exposes the handler invocation trace. -/
def publishSync (hret : Nat → Option String) (b : BusState) (m : Msg) :
    Outcome (Option String) × List Nat :=
  if ¬b.started then (.err ("message bus not started"), [])
  else if b.closed then (.panic ("send on closed channel"), [])
  else
    match processSyncLoop hret (getHandlers b m) with
    | (tr, errs) => (.ok errs.head?, tr)

/-- Folding a list of `(pattern, handler)` subscription events over a
bus state. -/
def applySubs (evs : List (String × Nat)) (b : BusState) : BusState :=
  evs.foldl (fun st e => subscribe e.1 e.2 st) b

/-! ## Helper lemmas -/

theorem lookupA_insertA_self {α : Type} (l : List (String × α)) (k : String) (v : α) :
    lookupA (insertA l k v) k = some v := by
  induction l with
  | nil => simp [insertA, lookupA]
  | cons p rest ih =>
      rcases p with ⟨k', v'⟩
      by_cases hk : k' = k
      · simp [insertA, hk, lookupA]
      · simp [insertA, hk, lookupA, ih]


/-- A successful `MakeWith` of a key bound shared leaves the returned
instance in the singleton cache under that key. -/
theorem makeWith_ok_caches (fenv : FEnv) (impls : Impls) (bs : Bindings)
    (fuel : Nat) (t : GoTy) (b : Binding) (params : Params) (sg : Sing)
    (v : GoVal) (sg' : Sing)
    (hb : lookupA bs t.str = some b) (hsh : b.shared = true)
    (h : makeWith fenv impls bs (fuel+1) (.ofType t) params sg = (.ok v, sg')) :
    lookupA sg' t.str = some v := by
  unfold makeWith at h
  simp only [getKey] at h
  rw [hb] at h
  simp only [hsh, eq_self_iff_true, if_true] at h
  split at h
  next inst heq =>
    simp only [Prod.mk.injEq, Outcome.ok.injEq] at h
    rcases h with ⟨hv, hs⟩
    rw [← hs, heq, hv]
  next heq =>
    split at h
    next inst sgx hm =>
      simp only [Prod.mk.injEq, Outcome.ok.injEq] at h
      rcases h with ⟨hv, hs⟩
      rw [← hs, ← hv]
      exact lookupA_insertA_self sgx t.str inst
    next e sgx hm => simp at h
    next m sgx hm => simp at h
    next sgx hm => simp at h

/-- A cache hit: `MakeWith` on a shared binding whose key is already in
the singleton cache returns the cached instance and leaves the cache
unchanged. -/
theorem makeWith_cache_hit (fenv : FEnv) (impls : Impls) (bs : Bindings)
    (fuel : Nat) (t : GoTy) (b : Binding) (params : Params) (sg : Sing) (v : GoVal)
    (hb : lookupA bs t.str = some b) (hsh : b.shared = true)
    (hc : lookupA sg t.str = some v) :
    makeWith fenv impls bs (fuel+1) (.ofType t) params sg = (.ok v, sg) := by
  unfold makeWith
  simp only [getKey]
  rw [hb]
  simp only [hsh, eq_self_iff_true, if_true, hc]

/-! ## Fixtures for witnesses and counterexamples -/

/-- Factory oracle used in concrete scenarios (no factory is ever
registered there). -/
def fenv0 : FEnv := fun _ => .err ("no factory")

/-- AssignableTo oracle used in concrete scenarios: no interface
implementations beyond exact type equality. -/
def impls0 : Impls := fun _ _ => false

/-! ## C7 -/

/-- C7: for every key registered shared (via `Singleton`), two
sequential (non-concurrent) `Make` calls return the identical instance:
a first successful resolution stores the built instance in the
singleton cache, and the second call returns the cached entry, leaving
the cache unchanged. -/
theorem c7_singleton_two_makes_same (fenv : FEnv) (impls : Impls) (bs : Bindings)
    (t : GoTy) (b : Binding) (fuel fuel₂ : Nat) (sg sg' : Sing) (v : GoVal)
    (hb : lookupA bs t.str = some b) (hsh : b.shared = true)
    (h : makeWith fenv impls bs (fuel+1) (.ofType t) [] sg = (.ok v, sg')) :
    makeWith fenv impls bs (fuel₂+1) (.ofType t) [] sg' = (.ok v, sg') :=
  makeWith_cache_hit fenv impls bs fuel₂ t b [] sg' v hb hsh
    (makeWith_ok_caches fenv impls bs fuel t b [] sg v sg' hb hsh h)

/-- C7 witness: a concrete shared binding, resolved twice; the second
resolution returns the instance cached by the first. -/
theorem c7_witness :
    makeWith fenv0 impls0 [("di.S", ⟨.prim ("A") 1, none, true, []⟩)] 1
      (.ofType (.iface ("di.S"))) [] [("di.S", .prim ("A") 1)]
      = (.ok (.prim ("A") 1), [("di.S", .prim ("A") 1)]) :=
  c7_singleton_two_makes_same fenv0 impls0 [("di.S", ⟨.prim ("A") 1, none, true, []⟩)]
    (.iface ("di.S")) ⟨.prim ("A") 1, none, true, []⟩ 4 0 [] [("di.S", .prim ("A") 1)]
    (.prim ("A") 1) rfl rfl rfl

/-! ## C3 -/

/-- C3: once a singleton cache entry exists for a key, later
re-registration does not evict it.  After `Singleton(k, A)` and a
successful `Make(k)` that cached some instance, re-registering the key
via `Singleton(k, B)` and calling `Make(k)` again still returns the
cached instance, not anything derived from `B`, and leaves the
container state unchanged. -/
theorem c3_singleton_cache_survives_rebind (fenv : FEnv) (impls : Impls)
    (s : CState) (t : GoTy) (A B : GoVal) (fuel fuel₂ : Nat) (v : GoVal) (s₁ : CState)
    (h : makeS fenv impls (singletonOp s (.ofType t) A).2 (fuel+1) (.ofType t) = (.ok v, s₁)) :
    makeS fenv impls (singletonOp s₁ (.ofType t) B).2 (fuel₂+1) (.ofType t)
      = (.ok v, (singletonOp s₁ (.ofType t) B).2) := by
  simp only [singletonOp, getKey, makeS, makeWithS] at h ⊢
  rcases hm : makeWith fenv impls (insertA s.bindings t.str ⟨A, none, true, []⟩)
      (fuel+1) (.ofType t) [] s.singletons with ⟨r, sg⟩
  rw [hm] at h
  simp only [Prod.mk.injEq] at h
  rcases h with ⟨hr, hs⟩
  have hc : lookupA sg t.str = some v := by
    apply makeWith_ok_caches fenv impls _ fuel t ⟨A, none, true, []⟩ [] s.singletons v sg
      (lookupA_insertA_self s.bindings t.str _) rfl
    rw [hm, hr]
  have hsg : s₁.singletons = sg := by rw [← hs]
  rw [makeWith_cache_hit fenv impls _ fuel₂ t ⟨B, none, true, []⟩ [] s₁.singletons v
    (lookupA_insertA_self s₁.bindings t.str _) rfl (by rw [hsg]; exact hc)]

/-- C3 witness: bind `A` shared, resolve (caching `A`), re-register the
same key with `B`, resolve again: still `A`. -/
theorem c3_witness :
    makeS fenv0 impls0
      (singletonOp ⟨[("di.S", ⟨.prim ("A") 1, none, true, []⟩)], [("di.S", .prim ("A") 1)]⟩
        (.ofType (.iface ("di.S"))) (.prim ("B") 2)).2 1 (.ofType (.iface ("di.S")))
      = (.ok (.prim ("A") 1),
         (singletonOp ⟨[("di.S", ⟨.prim ("A") 1, none, true, []⟩)], [("di.S", .prim ("A") 1)]⟩
           (.ofType (.iface ("di.S"))) (.prim ("B") 2)).2) :=
  c3_singleton_cache_survives_rebind fenv0 impls0 newContainer (.iface ("di.S"))
    (.prim ("A") 1) (.prim ("B") 2) 4 0 (.prim ("A") 1)
    ⟨[("di.S", ⟨.prim ("A") 1, none, true, []⟩)], [("di.S", .prim ("A") 1)]⟩ rfl

/-! ## C1 -/

/-- C1: evaluation of `MakeWith` on a constructor binding with a
matching params override.  Because the `continue` in the source's
argument loop advances only the inner params loop, the override never
takes effect: with the parameter's type unbound, the call fails instead
of using the override; with it bound, the container-resolved instance
is used and the distinct override value is not. -/
theorem c1_makewith_override_is_dead :
    (makeWith fenv0 impls0
        [("di.TestService", ⟨.ctorFn [.iface ("di.Dep")] 1 7 none, none, false, []⟩)]
        8 (.ofType (.iface ("di.TestService"))) [("di.Dep", .prim ("depImpl") 42)] []).1
      = .err ("failed to resolve constructor arg 0: no binding found for di.Dep")
    ∧ (makeWith fenv0 impls0
        [("di.TestService", ⟨.ctorFn [.iface ("di.Dep")] 1 7 none, none, false, []⟩),
         ("di.Dep", ⟨.prim ("containerDep") 1, none, false, []⟩)]
        8 (.ofType (.iface ("di.TestService"))) [("di.Dep", .prim ("depImpl") 42)] []).1
      = .ok (.made 7 [.prim ("containerDep") 1])
    ∧ Outcome.ok (GoVal.made 7 [GoVal.prim ("containerDep") 1])
        ≠ Outcome.ok (GoVal.made 7 [GoVal.prim ("depImpl") 42]) := by
  refine ⟨rfl, rfl, ?_⟩
  intro h
  injection h with h1
  injection h1 with h2 h3
  injection h3 with h4 h5
  injection h4 with h6 h7
  exact absurd h6 (by decide)

/-! ## C2 -/

/-- C2: evaluation of `Publish` around the bus lifecycle.  Before
`Start` it returns the not-started error without enqueuing; after a
successful `Stop` the `started` flag is still set, so `Publish` passes
the guard and the send on the closed `messages` channel is a runtime
panic, not a returned error (and nothing is enqueued). -/
theorem c2_publish_after_stop_is_panic_not_error :
    (publish newBus ⟨"user.created", "event"⟩).1 = .err ("message bus not started")
    ∧ (publish newBus ⟨"user.created", "event"⟩).2 = newBus
    ∧ (start newBus).1 = .ok ()
    ∧ (stop (start newBus).2).1 = .ok ()
    ∧ (publish (stop (start newBus).2).2 ⟨"user.created", "event"⟩).1
        = .panic ("send on closed channel")
    ∧ (publish (stop (start newBus).2).2 ⟨"user.created", "event"⟩).2
        = (stop (start newBus).2).2 :=
  ⟨rfl, rfl, rfl, rfl, rfl, rfl⟩

/-! ## C10 -/

/-- C10: `Stop` is not safe to call twice.  On a running bus `Stop`
returns nil and leaves the `started` flag set, so a second `Stop` call
reaches `close` on the already-closed envelope channel, a runtime panic
rather than a returned error. -/
theorem c10_stop_twice_panics (b : BusState)
    (hs : b.started = true) (hc : b.closed = false) :
    (stop b).1 = .ok () ∧ (stop b).2.started = true
      ∧ (stop (stop b).2).1 = .panic ("close of closed channel") := by
  simp [stop, hs, hc]

/-- C10 witness: start then stop a fresh bus; the second stop panics. -/
theorem c10_witness :
    (stop (start newBus).2).1 = .ok () ∧ (stop (start newBus).2).2.started = true
      ∧ (stop (stop (start newBus).2).2).1 = .panic ("close of closed channel") :=
  c10_stop_twice_panics (start newBus).2 rfl rfl

/-! ## C5 -/

/-- The subscriber registry after a sequence of `Subscribe` calls: each
pattern's list holds exactly the handlers subscribed under it, in
subscription order. -/
theorem applySubs_subs (evs : List (String × Nat)) (b : BusState) (p : String) :
    (applySubs evs b).subs p
      = b.subs p ++ (evs.filter (fun e => e.1 == p)).map Prod.snd := by
  induction evs generalizing b with
  | nil => simp [applySubs]
  | cons e evs ih =>
      rcases e with ⟨q, hdl⟩
      simp only [applySubs, List.foldl_cons] at ih ⊢
      rw [ih (subscribe q hdl b)]
      by_cases hq : q = p
      · subst hq
        simp [subscribe, List.filter_cons]
      · simp [subscribe, hq, List.filter_cons, Ne.symm hq]

/-- C5: for every subscription history and every message, the matched
handler set is exactly the concatenation, in this order, of the
handlers subscribed under the exact slug, under the exact
category/type, and under the wildcard pattern, each group in
subscription order and with no deduplication across groups. -/
theorem c5_matching_is_slug_type_wildcard_concat (evs : List (String × Nat)) (m : Msg) :
    getHandlers (applySubs evs newBus) m
      = (evs.filter (fun e => e.1 == m.slug)).map Prod.snd
        ++ (evs.filter (fun e => e.1 == m.ty)).map Prod.snd
        ++ (evs.filter (fun e => e.1 == "*")).map Prod.snd := by
  simp [getHandlers, applySubs_subs, newBus]

/-! ## C6 -/

/-- The Sync dispatch loop invokes every handler, in order, and
collects exactly the errors the handlers return, in order. -/
theorem processSyncLoop_eq (hret : Nat → Option String) (hs : List Nat) :
    processSyncLoop hret hs = (hs, hs.filterMap hret) := by
  induction hs with
  | nil => simp [processSyncLoop]
  | cons h t ih =>
      cases hr : hret h <;> simp [processSyncLoop, hr, ih, List.filterMap_cons]

/-- C6: on a running bus, a Sync publish invokes every matched handler
sequentially in matching order — the invocation trace is the whole
matched list, even when an earlier handler has already returned an
error — and `PublishSync` returns exactly the first handler error
(`none`, i.e. a nil error, when no handler errs); later errors are
discarded. -/
theorem c6_sync_all_invoked_first_error (hret : Nat → Option String)
    (b : BusState) (m : Msg) (hs : b.started = true) (hc : b.closed = false) :
    publishSync hret b m
      = (.ok ((getHandlers b m).filterMap hret).head?, getHandlers b m) := by
  simp [publishSync, hs, hc, processSyncLoop_eq]

/-- Handler behaviour for the C6 witness: handler 1 errs with boom,
handler 2 errs with bam, handler 3 returns nil. -/
def hret3 : Nat → Option String :=
  fun h => if h = 1 then some ("boom") else if h = 2 then some ("bam") else none

/-- Bus for the C6 witness: handler 1 under the slug, handler 2 under
the type, handler 3 under the wildcard, started. -/
def busC6 : BusState :=
  { applySubs [("user.created", 1), ("event", 2), ("*", 3)] newBus with started := true }

/-- C6 witness: all three matched handlers run (trace `[1, 2, 3]`)
although the first already erred, and the returned error is the first
one. -/
theorem c6_witness :
    publishSync hret3 busC6 ⟨"user.created", "event"⟩ = (.ok (some ("boom")), [1, 2, 3]) :=
  c6_sync_all_invoked_first_error hret3 busC6 ⟨"user.created", "event"⟩ rfl rfl

/-! ## C8 -/

/-- The fields of a pointer-to-struct value (empty for other values). -/
def GoVal.structFields : GoVal → List GoField
  | .ptrStruct _ fs => fs
  | _ => []

/-- Every list is `Forall₂`-related to itself by the
non-zero-preservation relation. -/
theorem forall₂_nonzero_refl (l : List GoField) :
    List.Forall₂ (fun a b : GoField => isZero a.fval = false → b.fval = a.fval) l l :=
  List.forall₂_same.mpr (fun _ _ => fun _ => rfl)

/-- The `AutoWire` field loop never changes a field whose value is
non-zero: the output field list is positionally related to the input
one, every non-zero input field keeping its value (whatever the
bindings, the fuel, and the outcome, including the error and panic
aborts). -/
theorem autoWireFields_keeps_nonzero (fenv : FEnv) (impls : Impls) (bs : Bindings) :
    ∀ (fuel : Nat) (fs : List GoField) (sg : Sing),
    List.Forall₂ (fun a b : GoField => isZero a.fval = false → b.fval = a.fval)
      fs ((autoWireFields fenv impls bs fuel fs sg).2.1) := by
  intro fuel
  induction fuel with
  | zero => intro fs sg; exact forall₂_nonzero_refl fs
  | succ fuel ih =>
      intro fs sg
      cases fs with
      | nil => simp [autoWireFields]
      | cons f fs =>
          unfold autoWireFields
          by_cases h1 : f.tag = "" ∧ ¬f.anonymous
          · rcases ha : autoWireFields fenv impls bs fuel fs sg with ⟨out, fs', sg'⟩
            simp only [if_pos h1, ha]
            exact List.Forall₂.cons (fun _ => rfl) (by have := ih fs sg; rwa [ha] at this)
          · by_cases h2 : isZero f.fval = true
            · have h2' : ¬(¬(isZero f.fval = true)) := by simp [h2]
              rcases hk : fieldKey f.fty with _ | k
              · rcases ha : autoWireFields fenv impls bs fuel fs sg with ⟨out, fs', sg'⟩
                simp only [if_neg h1, if_neg h2', hk, ha]
                exact List.Forall₂.cons (fun _ => rfl)
                  (by have := ih fs sg; rwa [ha] at this)
              · rcases hm : makeWith fenv impls bs fuel k [] sg with ⟨res, sgr⟩
                simp only [if_neg h1, if_neg h2', hk, hm]
                cases res with
                | ok inst =>
                    rcases ha : autoWireFields fenv impls bs fuel fs sgr with ⟨out, fs', sg'⟩
                    simp only [ha]
                    refine List.Forall₂.cons ?_ (by have := ih fs sgr; rwa [ha] at this)
                    intro hz
                    rw [hz] at h2
                    cases h2
                | err e =>
                    by_cases h3 : f.tag = "optional"
                    · rcases ha : autoWireFields fenv impls bs fuel fs sgr with ⟨out, fs', sg'⟩
                      simp only [if_pos h3, ha]
                      exact List.Forall₂.cons (fun _ => rfl)
                        (by have := ih fs sgr; rwa [ha] at this)
                    · simp only [if_neg h3]
                      exact List.Forall₂.cons (fun _ => rfl) (forall₂_nonzero_refl fs)
                | panic m => exact List.Forall₂.cons (fun _ => rfl) (forall₂_nonzero_refl fs)
                | fuelOut => exact List.Forall₂.cons (fun _ => rfl) (forall₂_nonzero_refl fs)
            · have h2' : ¬(isZero f.fval) = true := by simp [h2]
              rcases ha : autoWireFields fenv impls bs fuel fs sg with ⟨out, fs', sg'⟩
              simp only [if_neg h1, if_pos h2', ha]
              exact List.Forall₂.cons (fun _ => rfl)
                (by have := ih fs sg; rwa [ha] at this)

/-- C8: `AutoWire` on a pointer-to-struct target never modifies a field
that already holds a non-zero value, whatever bindings the container
holds: position by position, every non-zero field of the target keeps
its value in the result. -/
theorem c8_autowire_never_overwrites_nonzero (fenv : FEnv) (impls : Impls)
    (bs : Bindings) (fuel : Nat) (n : String) (fields : List GoField) (sg : Sing) :
    List.Forall₂ (fun a b : GoField => isZero a.fval = false → b.fval = a.fval)
      fields (GoVal.structFields (autoWire fenv impls bs fuel (.ptrStruct n fields) sg).2.1) := by
  cases fuel with
  | zero => exact forall₂_nonzero_refl fields
  | succ fuel =>
      unfold autoWire
      rcases ha : autoWireFields fenv impls bs fuel fields sg with ⟨out, fs', sg'⟩
      simp only [ha, GoVal.structFields]
      have := autoWireFields_keeps_nonzero fenv impls bs fuel fields sg
      rwa [ha] at this

/-! ## C9 -/

/-- C9 counterexample: `AutoWire` on a valid pointer-to-struct target
whose injectable optional field is interface-typed and whose dependency
is unbound does not return nil: the nil capability key derived for the
interface field makes `Make` panic inside `getKey` before the optional
tag is ever consulted. -/
theorem c9_counterexample_iface_optional_panics :
    (autoWire fenv0 impls0 [] 8
        (.ptrStruct ("T") [⟨"Svc", "optional", false, true, .iface ("di.TestService"), .nilV⟩])
        []).1
      = .panic ("runtime error: invalid memory address or nil pointer dereference")
    ∧ (autoWire fenv0 impls0 [] 8
        (.ptrStruct ("T") [⟨"Svc", "optional", false, true, .iface ("di.TestService"), .nilV⟩])
        []).1
      ≠ .ok () := by
  exact ⟨rfl, by decide⟩

/-- C9 (amended): for pointer-typed injectable fields the claim holds:
with the field's dependency unbound, an `optional`-tagged field is
skipped without error — the field stays at its zero value, the
remaining fields are still processed and decide the overall result —
while a `required`-tagged field propagates the resolution failure as
the `AutoWire` error. -/
theorem c9_amended_optional_ptr_swallowed_required_propagated
    (fenv : FEnv) (impls : Impls) (bs : Bindings) (fuel : Nat)
    (dep nm nm₂ : String) (fs : List GoField) (sg : Sing) (anon cset : Bool)
    (hnb : lookupA bs ("*" ++ dep) = none) :
    autoWireFields fenv impls bs (fuel+1+1)
        (⟨nm, "optional", anon, cset, .ptrTo dep, .nilV⟩ :: fs) sg
      = ((autoWireFields fenv impls bs (fuel+1) fs sg).1,
         ⟨nm, "optional", anon, cset, .ptrTo dep, .nilV⟩
           :: (autoWireFields fenv impls bs (fuel+1) fs sg).2.1,
         (autoWireFields fenv impls bs (fuel+1) fs sg).2.2)
    ∧ autoWireFields fenv impls bs (fuel+1+1)
        [⟨nm₂, "required", anon, cset, .ptrTo dep, .nilV⟩] sg
      = (.err ("failed to resolve " ++ nm₂ ++ ": "
            ++ ("no binding found for " ++ ("*" ++ dep))),
         [⟨nm₂, "required", anon, cset, .ptrTo dep, .nilV⟩], sg) := by
  have hmk : makeWith fenv impls bs (fuel+1) (.ofType (.ptrTo dep)) [] sg
      = (.err ("no binding found for " ++ ("*" ++ dep)), sg) := by
    unfold makeWith
    simp only [getKey, GoTy.str]
    rw [hnb]
  constructor
  · rcases ha : autoWireFields fenv impls bs (fuel+1) fs sg with ⟨out, fs', sg'⟩
    simp only [autoWireFields, isZero, fieldKey]
    rw [hmk]
    simp [ha]
  · simp only [autoWireFields, isZero, fieldKey]
    rw [hmk]
    simp

/-- C9 witness: a concrete optional pointer field with an unbound
dependency yields no error and keeps the field zero; the same field
tagged required yields the propagated error. -/
theorem c9_witness :
    autoWireFields fenv0 impls0 [] 2
        [⟨"Dep", "optional", false, true, .ptrTo ("di.Dep"), .nilV⟩] []
      = (.ok (), [⟨"Dep", "optional", false, true, .ptrTo ("di.Dep"), .nilV⟩], [])
    ∧ autoWireFields fenv0 impls0 [] 2
        [⟨"Req", "required", false, true, .ptrTo ("di.Dep"), .nilV⟩] []
      = (.err ("failed to resolve Req: no binding found for *di.Dep"),
         [⟨"Req", "required", false, true, .ptrTo ("di.Dep"), .nilV⟩], []) := by
  have h := c9_amended_optional_ptr_swallowed_required_propagated fenv0 impls0 [] 0
    "di.Dep" "Dep" "Req" [] [] false true rfl
  exact ⟨h.1, h.2⟩

/-! ## C4 -/

/-- C4 counterexample: a single binding registered via `BindTagged`
with the tag listed twice yields two instances from that one binding in
a single `Tagged` call. -/
theorem c4_counterexample_duplicate_tag_two_instances :
    (tagged fenv0 impls0
        ⟨[("pkg.A", ⟨.prim ("A") 1, none, false, ["a", "a"]⟩)], []⟩ 8 ("a")).1
      = .ok [.prim ("A") 1, .prim ("A") 1]
    ∧ ([("pkg.A", (⟨.prim ("A") 1, none, false, ["a", "a"]⟩ : Binding))].filter
        (fun kb => kb.2.tags.contains ("a"))).length = 1
    ∧ [GoVal.prim ("A") 1, GoVal.prim ("A") 1].length ≠ 1 := by
  exact ⟨rfl, rfl, by decide⟩

/-- Whenever the inner tag loop of `Tagged` succeeds on a binding, it
returns exactly one instance per occurrence of the requested tag in the
traversed tag list — for any binding (plain instance, pointer-to-struct,
constructor or factory), any oracles and any cache state. -/
theorem taggedTags_ok_length (fenv : FEnv) (impls : Impls) (bs : Bindings) (fuel : Nat)
    (key : String) (b : Binding) (tag : String) :
    ∀ (ts : List String) (sg : Sing) (insts : List GoVal) (sg' : Sing),
    taggedTags fenv impls bs fuel key b tag ts sg = (.ok insts, sg') →
    insts.length = (ts.filter (fun t => t == tag)).length := by
  intro ts
  induction ts with
  | nil =>
      intro sg insts sg' h
      simp only [taggedTags, Prod.mk.injEq, Outcome.ok.injEq] at h
      rw [← h.1]
      simp
  | cons t ts ih =>
      intro sg insts sg' h
      by_cases ht : t = tag
      · simp only [taggedTags, if_pos ht] at h
        split at h
        next xs inst hcache =>
          split at h
          next xp more sgr hrec =>
            obtain ⟨h1, h2⟩ := h
            simp [List.filter_cons, ht, ih sg more sg' hrec]
          next xp hne =>
            exact (hne insts sg' h).elim
        next xs hcache =>
          split at h
          next xo inst sgx hbf =>
            split at h
            next xp more sgr hrec =>
              obtain ⟨h1, h2⟩ := h
              simp [List.filter_cons, ht, ih sgx more sg' hrec]
            next xp hne =>
              exact (hne insts sg' h).elim
          next xo e sgx hbf => simp at h
          next xo m sgx hbf => simp at h
          next xo sgx hbf => simp at h
      · simp only [taggedTags, if_neg ht] at h
        simp [List.filter_cons, ht, ih sg insts sg' h]

theorem taggedLoop_ok_flatten (fenv : FEnv) (impls : Impls) (bs : Bindings) (fuel : Nat)
    (tag : String) :
    ∀ (entries : List (String × Binding)) (sg : Sing) (l : List GoVal) (sg' : Sing),
    taggedLoop fenv impls bs fuel tag entries sg = (.ok l, sg') →
    ∃ ls : List (List GoVal), l = ls.flatten
      ∧ List.Forall₂
          (fun (kb : String × Binding) (li : List GoVal) =>
            li.length = (kb.2.tags.filter (fun t => t == tag)).length)
          entries ls := by
  intro entries
  induction entries with
  | nil =>
      intro sg l sg' h
      simp only [taggedLoop, Prod.mk.injEq, Outcome.ok.injEq] at h
      exact ⟨[], by simp [← h.1], List.Forall₂.nil⟩
  | cons kb rest ih =>
      intro sg l sg' h
      rcases kb with ⟨key, b⟩
      simp only [taggedLoop] at h
      split at h
      next xt insts sg1 heq1 =>
        split at h
        next xl more sg2 heq2 =>
          obtain ⟨h1, h2⟩ := h
          obtain ⟨ls, hflat, hfa⟩ := ih sg1 more sg' heq2
          refine ⟨insts :: ls, ?_, ?_⟩
          · rw [hflat]
            simp
          · exact List.Forall₂.cons
              (taggedTags_ok_length fenv impls bs fuel key b tag b.tags sg insts sg1 heq1)
              hfa
        next xl hne =>
          exact (hne l sg' h).elim
      next xt e sg1 heq1 => simp at h
      next xt m sg1 heq1 => simp at h
      next xt sg1 heq1 => simp at h

theorem taggedLoop_abort (fenv : FEnv) (impls : Impls) (bs : Bindings) (fuel : Nat)
    (tag : String) :
    ∀ (pre : List (String × Binding)) (sg : Sing) (insts : List GoVal) (sg₁ : Sing)
      (key : String) (b : Binding) (e : String) (sg₂ : Sing) (suf : List (String × Binding)),
    taggedLoop fenv impls bs fuel tag pre sg = (.ok insts, sg₁) →
    taggedTags fenv impls bs fuel key b tag b.tags sg₁ = (.err e, sg₂) →
    taggedLoop fenv impls bs fuel tag (pre ++ (key, b) :: suf) sg = (.err e, sg₂) := by
  intro pre
  induction pre with
  | nil =>
      intro sg insts sg₁ key b e sg₂ suf h1 h2
      simp only [taggedLoop, Prod.mk.injEq, Outcome.ok.injEq] at h1
      rw [← h1.2] at h2
      simp only [List.nil_append, taggedLoop, h2]
  | cons kb pre ih =>
      intro sg insts sg₁ key b e sg₂ suf h1 h2
      rcases kb with ⟨k₀, b₀⟩
      simp only [taggedLoop] at h1
      split at h1
      next xt iA sgA heqA =>
        split at h1
        next xl more sgB heqB =>
          obtain ⟨hi, hs⟩ := h1
          have hrec := ih sgA more sg₁ key b e sg₂ suf heqB h2
          simp only [List.cons_append, taggedLoop, heqA]
          rw [List.append_eq, hrec]
        next xl hne =>
          exact (hne insts sg₁ h1).elim
      next xt eA sgA heqA => simp at h1
      next xt m sgA heqA => simp at h1
      next xt sgA heqA => simp at h1

/-- C4 (amended): `Tagged(t)` returns one instance per occurrence of
`t` in each binding's tag list — so a tag listed twice in
`BindTagged`'s tag list yields two instances from that one binding —
the result being the registry-ordered concatenation of the per-binding
instance lists; and if building any tagged binding fails (the bindings
before it in registry order having built), `Tagged` returns that error
and no instance list, whatever bindings follow. -/
theorem c4_amended_one_instance_per_tag_occurrence (fenv : FEnv) (impls : Impls)
    (bs : Bindings) (fuel : Nat) (tag : String) :
    (∀ (entries : List (String × Binding)) (sg : Sing) (l : List GoVal) (sg' : Sing),
       taggedLoop fenv impls bs fuel tag entries sg = (.ok l, sg') →
       ∃ ls : List (List GoVal), l = ls.flatten
         ∧ List.Forall₂
             (fun (kb : String × Binding) (li : List GoVal) =>
               li.length = (kb.2.tags.filter (fun t => t == tag)).length)
             entries ls)
    ∧ (∀ (pre : List (String × Binding)) (sg : Sing) (insts : List GoVal) (sg₁ : Sing)
         (key : String) (b : Binding) (e : String) (sg₂ : Sing)
         (suf : List (String × Binding)),
       taggedLoop fenv impls bs fuel tag pre sg = (.ok insts, sg₁) →
       taggedTags fenv impls bs fuel key b tag b.tags sg₁ = (.err e, sg₂) →
       taggedLoop fenv impls bs fuel tag (pre ++ (key, b) :: suf) sg = (.err e, sg₂)) :=
  ⟨taggedLoop_ok_flatten fenv impls bs fuel tag, taggedLoop_abort fenv impls bs fuel tag⟩

/-- C4 witness: on the duplicate-tag registry the amended theorem
attributes both returned instances to the single binding (a per-binding
list of length two, the number of occurrences of the tag); and a
registry whose middle binding is a constructor with an unbound
dependency aborts the whole call with that constructor's resolution
error, the trailing binding notwithstanding. -/
theorem c4_amended_witness :
    (∃ ls : List (List GoVal),
       [GoVal.prim ("A") 1, GoVal.prim ("A") 1] = ls.flatten
       ∧ List.Forall₂
           (fun (kb : String × Binding) (li : List GoVal) =>
             li.length = (kb.2.tags.filter (fun t => t == ("a"))).length)
           [("pkg.A", ⟨.prim ("A") 1, none, false, ["a", "a"]⟩)] ls)
    ∧ taggedLoop fenv0 impls0
        [("pkg.A", ⟨.prim ("A") 1, none, false, ["a", "a"]⟩),
         ("pkg.B", ⟨.ctorFn [.iface ("di.Dep")] 1 9 none, none, false, ["a"]⟩),
         ("pkg.C", ⟨.prim ("C") 3, none, false, ["a"]⟩)] 8 ("a")
        ([("pkg.A", ⟨.prim ("A") 1, none, false, ["a", "a"]⟩)]
          ++ ("pkg.B", (⟨.ctorFn [.iface ("di.Dep")] 1 9 none, none, false, ["a"]⟩ : Binding))
          :: [("pkg.C", ⟨.prim ("C") 3, none, false, ["a"]⟩)]) []
      = (.err ("failed to resolve constructor arg 0: no binding found for di.Dep"), []) := by
  constructor
  · exact (c4_amended_one_instance_per_tag_occurrence fenv0 impls0
      [("pkg.A", ⟨.prim ("A") 1, none, false, ["a", "a"]⟩)] 8 ("a")).1
      [("pkg.A", ⟨.prim ("A") 1, none, false, ["a", "a"]⟩)] []
      [GoVal.prim ("A") 1, GoVal.prim ("A") 1] [] rfl
  · exact (c4_amended_one_instance_per_tag_occurrence fenv0 impls0
      [("pkg.A", ⟨.prim ("A") 1, none, false, ["a", "a"]⟩),
       ("pkg.B", ⟨.ctorFn [.iface ("di.Dep")] 1 9 none, none, false, ["a"]⟩),
       ("pkg.C", ⟨.prim ("C") 3, none, false, ["a"]⟩)] 8 ("a")).2
      [("pkg.A", ⟨.prim ("A") 1, none, false, ["a", "a"]⟩)] []
      [GoVal.prim ("A") 1, GoVal.prim ("A") 1] []
      ("pkg.B") ⟨.ctorFn [.iface ("di.Dep")] 1 9 none, none, false, ["a"]⟩
      ("failed to resolve constructor arg 0: no binding found for di.Dep") []
      [("pkg.C", ⟨.prim ("C") 3, none, false, ["a"]⟩)] rfl rfl
